import Mathlib

/-!
Verification of the connection-and-resolution subsystem of the Deephaven
example application.  The model below is a shallow embedding of the two
source variants of App.tsx:

* the full variant (with clientConnected, an event-driven loadTable and a
  session-based createTable), and
* the enterprise variant (no connect wait, createTable unconditionally
  throws).

Promises are modelled by a state that records the first settlement
(outcome) together with the number of calls made to resolve and reject;
a settled promise ignores later calls, but the calls themselves are still
counted, since the source never guards its callbacks against running after
settlement.  Timers and event listeners are modelled by Boolean flags with
the platform semantics of clearTimeout and removeEventListener.
-/

namespace DhApp

/-- A server-announced query config (a named resource group).  The id field
distinguishes two groups that carry the same name, so that a resolution
outcome identifies which group produced it. -/
structure Query where
  id : Nat
  name : String
deriving Repr, DecidableEq

/-- The table handle produced by matchingQuery.getTable(tableName): it
records which query it came from and the requested table name. -/
structure Handle where
  queryId : Nat
  tableName : String
deriving Repr, DecidableEq

/-- Settlement of the loadTable promise. -/
inductive Outcome where
  | resolved (h : Handle)
  | rejected (msg : String)
deriving Repr, DecidableEq

/-- The in-flight state of one loadTable attempt: the promise settlement,
call counters for resolve and reject, and whether the config-added listener
and the 10 second timer are still active. -/
structure LoadState where
  outcome : Option Outcome
  resolveCalls : Nat
  rejectCalls : Nat
  listenerActive : Bool
  timerActive : Bool
deriving Repr, DecidableEq

/-- First settlement wins: a settled promise ignores later settlements. -/
def settle (s : LoadState) (o : Outcome) : LoadState :=
  match s.outcome with
  | some _ => s
  | none => { s with outcome := some o }

/-- A call to resolve: settles the promise if unsettled, and is counted. -/
def callResolve (s : LoadState) (h : Handle) : LoadState :=
  let s1 := settle s (Outcome.resolved h)
  { s1 with resolveCalls := s1.resolveCalls + 1 }

/-- A call to reject: settles the promise if unsettled, and is counted. -/
def callReject (s : LoadState) (msg : String) : LoadState :=
  let s1 := settle s (Outcome.rejected msg)
  { s1 with rejectCalls := s1.rejectCalls + 1 }

/-- matchingQuery.getTable(tableName). -/
def getTable (q : Query) (tableName : String) : Handle :=
  { queryId := q.id, tableName := tableName }

/-- The inner resolveIfQueryFound of loadTable: find the first query in the
batch whose name equals queryName; on a match, resolve with its table, clear
the timeout and remove the listener. -/
def resolveIfQueryFound (queryName tableName : String) (queries : List Query)
    (s : LoadState) : LoadState :=
  match queries.find? (fun q => q.name == queryName) with
  | some matchingQuery =>
      let s1 := callResolve s (getTable matchingQuery tableName)
      let s2 := { s1 with timerActive := false }
      { s2 with listenerActive := false }
  | none => s

/-- The EVENT_CONFIG_ADDED listener: wraps the single announced config in a
batch and scans it.  It only runs while it is registered. -/
def listenerStep (queryName tableName : String) (q : Query) (s : LoadState) :
    LoadState :=
  if s.listenerActive then resolveIfQueryFound queryName tableName [q] s else s

/-- The 10 second timeout callback of loadTable: reject with the
query-not-found message, then remove the listener.  It only runs if the
timer is still pending. -/
def timerFireStep (queryName : String) (s : LoadState) : LoadState :=
  if s.timerActive then
    let s1 := { s with timerActive := false }
    let s2 := callReject s1 ("Query not found, " ++ queryName)
    { s2 with listenerActive := false }
  else s

/-- Disposal of the pending resolution: removeListener plus clearTimeout,
each of which is a no-op when already removed or cleared. -/
def dispose (s : LoadState) : LoadState :=
  { s with listenerActive := false, timerActive := false }

/-- The client-side system state during a resolution attempt: the set of
known configs (grown by every announcement) and the loadTable state. -/
structure SysState where
  known : List Query
  load : LoadState
deriving Repr, DecidableEq

/-- A server announcement: the config joins the known set, and the
config-added listener runs if it is registered. -/
def announceStep (queryName tableName : String) (q : Query) (st : SysState) :
    SysState :=
  { known := st.known ++ [q],
    load := listenerStep queryName tableName q st.load }

/-- External events delivered after the loadTable body has run. -/
inductive Ev where
  | announce (q : Query)
  | timerFire
deriving Repr, DecidableEq

/-- One event delivery. -/
def step (queryName tableName : String) (st : SysState) (e : Ev) : SysState :=
  match e with
  | Ev.announce q => announceStep queryName tableName q st
  | Ev.timerFire => { st with load := timerFireStep queryName st.load }

/-- Deliver a list of events in order. -/
def runEvents (queryName tableName : String) (st : SysState) (es : List Ev) :
    SysState :=
  es.foldl (step queryName tableName) st

/-- LoadState immediately after setTimeout: timer pending, listener not yet
registered, promise pending. -/
def initLoadState : LoadState :=
  { outcome := none, resolveCalls := 0, rejectCalls := 0,
    listenerActive := false, timerActive := true }

/-- LoadState once the config-added listener has been registered. -/
def registeredLoadState : LoadState :=
  { initLoadState with listenerActive := true }

/-- Registering the config-added listener. -/
def registerListener (st : SysState) : SysState :=
  { st with load := { st.load with listenerActive := true } }

/-- getKnownConfigs followed by the scan of the snapshot. -/
def scanSnapshot (queryName tableName : String) (st : SysState) : SysState :=
  { st with load := resolveIfQueryFound queryName tableName st.known st.load }

/-- The full loadTable attempt, following the order of the source body:
set the timeout, register the config-added listener, then read the current
snapshot of known configs and scan it.  The gap argument is the list of
announcements arriving between listener registration and the snapshot scan
(these both join the snapshot and fire the listener); after is everything
delivered once the body has finished. -/
def loadTableRun (queryName tableName : String) (initialKnown : List Query)
    (gap : List Query) (after : List Ev) : SysState :=
  runEvents queryName tableName
    (scanSnapshot queryName tableName
      (gap.foldl (fun st q => announceStep queryName tableName q st)
        (registerListener { known := initialKnown, load := initLoadState })))
    after

/-- The fixed connect deadline of clientConnected, in milliseconds. -/
def CLIENT_TIMEOUT : Nat := 60000

/-- Settlement of the clientConnected promise. -/
inductive ConnOutcome where
  | connectedOk
  | timedOut (msg : String)
deriving Repr, DecidableEq

/-- The in-flight state of one clientConnected wait: promise settlement,
resolve and reject call counters, whether the connect timer is still
pending, and how many times the connect listener has run.  The source never
removes the connect listener, so no flag for it exists. -/
structure ConnState where
  outcome : Option ConnOutcome
  resolveCalls : Nat
  rejectCalls : Nat
  timerActive : Bool
  listenerRuns : Nat
deriving Repr, DecidableEq

/-- First settlement wins for the clientConnected promise. -/
def connSettle (s : ConnState) (o : ConnOutcome) : ConnState :=
  match s.outcome with
  | some _ => s
  | none => { s with outcome := some o }

/-- A call to resolve on the clientConnected promise. -/
def connResolve (s : ConnState) : ConnState :=
  let s1 := connSettle s ConnOutcome.connectedOk
  { s1 with resolveCalls := s1.resolveCalls + 1 }

/-- A call to reject on the clientConnected promise. -/
def connReject (s : ConnState) (msg : String) : ConnState :=
  let s1 := connSettle s (ConnOutcome.timedOut msg)
  { s1 with rejectCalls := s1.rejectCalls + 1 }

/-- The EVENT_CONNECT listener, which is never removed: it runs whenever
the connect signal is delivered, calling resolve and then clearTimeout. -/
def connectSignalStep (s : ConnState) : ConnState :=
  let s1 := { s with listenerRuns := s.listenerRuns + 1 }
  let s2 := connResolve s1
  { s2 with timerActive := false }

/-- The connect timeout callback: only runs while the timer is pending;
rejects with the timeout message.  It does not remove the listener. -/
def connTimerFire (s : ConnState) : ConnState :=
  if s.timerActive then
    connReject { s with timerActive := false } "Timeout waiting for connect"
  else s

/-- ConnState right after clientConnected sets its timer on a client that
is not yet connected. -/
def initConnState : ConnState :=
  { outcome := none, resolveCalls := 0, rejectCalls := 0,
    timerActive := true, listenerRuns := 0 }

/-- One clientConnected wait.  If the client is already connected the
promise resolves immediately and no timer or listener is created.
Otherwise the timer is set for the deadline and the connect listener
registered; when the connect signal arrives at time t, either the signal
is delivered while the timer is pending (t within the deadline), or the
timer fires first and the signal is delivered afterwards. -/
def clientConnectedRun (isConnected : Bool) (deadline t : Nat) : ConnState :=
  if isConnected then
    { outcome := some ConnOutcome.connectedOk, resolveCalls := 1,
      rejectCalls := 0, timerActive := false, listenerRuns := 0 }
  else if t ≤ deadline then
    connectSignalStep initConnState
  else
    connectSignalStep (connTimerFire initConnState)

/-- One transport connection, as torn down by client.disconnect. -/
structure Connection where
  connected : Bool
deriving Repr, DecidableEq

/-- client.disconnect: closes the transport session. -/
def disconnect (c : Connection) : Connection :=
  { c with connected := false }

/-- A created-object definition from the execution result. -/
structure ObjDef where
  name : String
deriving Repr, DecidableEq

/-- The changes reported by an execution result; only the created entries
are consulted by createTable. -/
structure Changes where
  created : List ObjDef
deriving Repr, DecidableEq

/-- The result of session.runCode. -/
structure ExecResult where
  changes : Changes
deriving Repr, DecidableEq

/-- The table object returned by session.getObject. -/
structure TableObject where
  definitionName : String
deriving Repr, DecidableEq

/-- The computation session of the Create-ephemeral path, abstracted to
the two capabilities createTable uses: the execution result of the fixed
work unit, and fetching the object for a created definition. -/
structure Session where
  execResult : ExecResult
  getObject : ObjDef → TableObject

/-- createTable of the full variant, from the point where the execution
result is in hand: take entry zero of changes.created and fetch its
object.  When created is empty, entry zero is undefined and reading its
name throws, which rejects the async function. -/
def createTable (session : Session) : Except String TableObject :=
  match session.execResult.changes.created with
  | [] => Except.error "TypeError: cannot read name of undefined created entry"
  | definition :: _ => Except.ok (session.getObject definition)

/-- JavaScript truthiness of a nullable query parameter: null and the
empty string are falsy. -/
def truthy : Option String → Bool
  | none => false
  | some s => !(s == "")

/-- The resolution strategy chosen by initApp. -/
inductive Strategy where
  | locateExisting (groupName resourceName : String)
  | createEphemeral
deriving Repr, DecidableEq

/-- The strategy selection of initApp: queryName and tableName must both be
truthy for loadTable, otherwise createTable is used. -/
def selectStrategy (queryName tableName : Option String) : Strategy :=
  if truthy queryName && truthy tableName then
    Strategy.locateExisting (queryName.getD "") (tableName.getD "")
  else
    Strategy.createEphemeral

/-- A URL, reduced to the parts the derivation touches: scheme, host (with
port) and path. -/
structure Url where
  scheme : String
  host : String
  path : String
deriving Repr, DecidableEq

/-- The websocket endpoint derivation of initApp: new URL of /socket
against the base replaces the path, then the scheme becomes ws for an http
base and wss for every other base. -/
def deriveWebsocketUrl (base : Url) : Url :=
  let u : Url := { base with path := "/socket" }
  if u.scheme == "http" then { u with scheme := "ws" }
  else { u with scheme := "wss" }

namespace Enterprise

/-- createTable of the enterprise variant: it unconditionally throws. -/
def createTable : Except String TableObject :=
  Except.error "Creating table not yet implemented in example, please provide queryName/tableName in the URL params"

/-- The table resolution of the enterprise initApp: loadTable when both
params are truthy, otherwise the always-failing createTable.  The locate
argument abstracts the outcome of the loadTable attempt. -/
def tableResult (queryName tableName : Option String)
    (locate : String → String → Except String TableObject) :
    Except String TableObject :=
  if truthy queryName && truthy tableName then
    locate (queryName.getD "") (tableName.getD "")
  else createTable

end Enterprise

/-!
Helper lemmas about the loadTable event model.
-/

/-- The effect of one delivered event on the loadTable state alone. -/
def loadStep (queryName tableName : String) (s : LoadState) (e : Ev) : LoadState :=
  match e with
  | Ev.announce q => listenerStep queryName tableName q s
  | Ev.timerFire => timerFireStep queryName s

theorem runEvents_load (queryName tableName : String) (st : SysState)
    (es : List Ev) :
    (runEvents queryName tableName st es).load =
      es.foldl (loadStep queryName tableName) st.load := by
  induction es generalizing st with
  | nil => rfl
  | cons e es ih =>
      cases e with
      | announce q =>
          show (runEvents queryName tableName
              (step queryName tableName st (Ev.announce q)) es).load = _
          rw [ih]
          rfl
      | timerFire =>
          show (runEvents queryName tableName
              (step queryName tableName st Ev.timerFire) es).load = _
          rw [ih]
          rfl

theorem gapFold_load (queryName tableName : String) (gap : List Query)
    (st : SysState) :
    (gap.foldl (fun st q => announceStep queryName tableName q st) st).load =
      gap.foldl (fun s q => listenerStep queryName tableName q s) st.load := by
  induction gap generalizing st with
  | nil => rfl
  | cons q gap ih =>
      show ((gap.foldl _ (announceStep queryName tableName q st))).load = _
      rw [ih]
      rfl

theorem settle_outcome_of_some {s : LoadState} {o : Outcome}
    (h : s.outcome = some o) (o' : Outcome) : (settle s o').outcome = some o := by
  simp [settle, h]

theorem callResolve_outcome_of_some {s : LoadState} {o : Outcome}
    (h : s.outcome = some o) (hd : Handle) :
    (callResolve s hd).outcome = some o := by
  simp [callResolve, settle, h]

theorem callReject_outcome_of_some {s : LoadState} {o : Outcome}
    (h : s.outcome = some o) (msg : String) :
    (callReject s msg).outcome = some o := by
  simp [callReject, settle, h]

theorem resolveIfQueryFound_outcome_of_some {queryName tableName : String}
    {qs : List Query} {s : LoadState} {o : Outcome} (h : s.outcome = some o) :
    (resolveIfQueryFound queryName tableName qs s).outcome = some o := by
  unfold resolveIfQueryFound
  cases hf : qs.find? (fun q => q.name == queryName) with
  | none => simpa using h
  | some q => simp [callResolve, settle, h]

theorem listenerStep_outcome_of_some {queryName tableName : String} {q : Query}
    {s : LoadState} {o : Outcome} (h : s.outcome = some o) :
    (listenerStep queryName tableName q s).outcome = some o := by
  unfold listenerStep
  split
  · exact resolveIfQueryFound_outcome_of_some h
  · exact h

theorem timerFireStep_outcome_of_some {queryName : String} {s : LoadState}
    {o : Outcome} (h : s.outcome = some o) :
    (timerFireStep queryName s).outcome = some o := by
  unfold timerFireStep
  split
  · simp [callReject, settle, h]
  · exact h

theorem loadStep_outcome_of_some {queryName tableName : String} {s : LoadState}
    {o : Outcome} (h : s.outcome = some o) (e : Ev) :
    (loadStep queryName tableName s e).outcome = some o := by
  cases e with
  | announce q => exact listenerStep_outcome_of_some h
  | timerFire => exact timerFireStep_outcome_of_some h

theorem loadFold_outcome_of_some {queryName tableName : String} {s : LoadState}
    {o : Outcome} (h : s.outcome = some o) (es : List Ev) :
    (es.foldl (loadStep queryName tableName) s).outcome = some o := by
  induction es generalizing s with
  | nil => exact h
  | cons e es ih => exact ih (loadStep_outcome_of_some h e)

theorem listenerFold_outcome_of_some {queryName tableName : String}
    {s : LoadState} {o : Outcome} (h : s.outcome = some o) (qs : List Query) :
    (qs.foldl (fun s q => listenerStep queryName tableName q s) s).outcome
      = some o := by
  induction qs generalizing s with
  | nil => exact h
  | cons q qs ih => exact ih (listenerStep_outcome_of_some h)

theorem find?_eq_none_of_no_match (queryName : String) (l : List Query)
    (h : ∀ q ∈ l, q.name ≠ queryName) :
    l.find? (fun q => q.name == queryName) = none := by
  rw [List.find?_eq_none]
  intro q hq
  simp [h q hq]

theorem resolveIfQueryFound_no_match (queryName tableName : String)
    (l : List Query) (s : LoadState) (h : ∀ q ∈ l, q.name ≠ queryName) :
    resolveIfQueryFound queryName tableName l s = s := by
  unfold resolveIfQueryFound
  rw [find?_eq_none_of_no_match queryName l h]

theorem listenerStep_no_match (queryName tableName : String) (q : Query)
    (s : LoadState) (h : q.name ≠ queryName) :
    listenerStep queryName tableName q s = s := by
  unfold listenerStep
  split
  · refine resolveIfQueryFound_no_match queryName tableName [q] s ?_
    intro p hp
    rw [List.mem_singleton] at hp
    subst hp
    exact h
  · rfl

theorem listenerStep_inactive (queryName tableName : String) (q : Query)
    (s : LoadState) (h : s.listenerActive = false) :
    listenerStep queryName tableName q s = s := by
  unfold listenerStep
  rw [h]
  simp

theorem loadFold_announce_no_match (queryName tableName : String)
    (qs : List Query) (s : LoadState) (h : ∀ q ∈ qs, q.name ≠ queryName) :
    (qs.map Ev.announce).foldl (loadStep queryName tableName) s = s := by
  induction qs generalizing s with
  | nil => rfl
  | cons q qs ih =>
      rw [List.map_cons]
      show (qs.map Ev.announce).foldl (loadStep queryName tableName)
          (listenerStep queryName tableName q s) = s
      rw [listenerStep_no_match queryName tableName q s (h q (by simp))]
      exact ih s (fun p hp => h p (by simp [hp]))

theorem loadFold_announce_inactive (queryName tableName : String)
    (qs : List Query) (s : LoadState) (h : s.listenerActive = false) :
    (qs.map Ev.announce).foldl (loadStep queryName tableName) s = s := by
  induction qs generalizing s with
  | nil => rfl
  | cons q qs ih =>
      rw [List.map_cons]
      show (qs.map Ev.announce).foldl (loadStep queryName tableName)
          (listenerStep queryName tableName q s) = s
      rw [listenerStep_inactive queryName tableName q s h]
      exact ih s h

/-- The invariant maintained while the listener is registered and the gap
announcements are processed: either the listener is still active and the
promise pending, or the promise has already resolved to a table handle. -/
def ResolutionInv (s : LoadState) : Prop :=
  (s.listenerActive = true ∧ s.outcome = none) ∨
  ∃ hd, s.outcome = some (Outcome.resolved hd)

theorem listenerStep_inv (queryName tableName : String) (q : Query)
    (s : LoadState) (h : ResolutionInv s) :
    ResolutionInv (listenerStep queryName tableName q s) := by
  rcases h with ⟨hact, hout⟩ | ⟨hd, hout⟩
  · cases hf : [q].find? (fun p => p.name == queryName) with
    | none =>
        left
        constructor <;>
          simp [listenerStep, resolveIfQueryFound, hf, hact, hout]
    | some q' =>
        right
        refine ⟨getTable q' tableName, ?_⟩
        simp [listenerStep, resolveIfQueryFound, hf, hact, callResolve,
          settle, hout]
  · exact Or.inr ⟨hd, listenerStep_outcome_of_some hout⟩

theorem listenerFold_inv (queryName tableName : String) (qs : List Query)
    (s : LoadState) (h : ResolutionInv s) :
    ResolutionInv (qs.foldl (fun s q => listenerStep queryName tableName q s) s) := by
  induction qs generalizing s with
  | nil => exact h
  | cons q qs ih =>
      exact ih _ (listenerStep_inv queryName tableName q s h)

theorem listenerStep_match_resolves (queryName tableName : String) (q : Query)
    (s : LoadState) (h : ResolutionInv s) (hname : q.name = queryName) :
    ∃ hd, (listenerStep queryName tableName q s).outcome
      = some (Outcome.resolved hd) := by
  rcases h with ⟨hact, hout⟩ | ⟨hd, hout⟩
  · refine ⟨getTable q tableName, ?_⟩
    have hf : [q].find? (fun p => p.name == queryName) = some q :=
      List.find?_cons_of_pos _ (by simp [hname])
    simp [listenerStep, hact, resolveIfQueryFound, hf, callResolve, settle,
      hout]
  · exact ⟨hd, listenerStep_outcome_of_some hout⟩

theorem find?_first_of_prefix (queryName : String) (pre post : List Query)
    (q : Query) (hpre : ∀ p ∈ pre, p.name ≠ queryName)
    (hq : q.name = queryName) :
    (pre ++ q :: post).find? (fun p => p.name == queryName) = some q := by
  induction pre with
  | nil =>
      show (q :: post).find? _ = some q
      exact List.find?_cons_of_pos _ (by simp [hq])
  | cons a pre ih =>
      show (a :: (pre ++ q :: post)).find? _ = some q
      have ha : a.name ≠ queryName := hpre a (by simp)
      rw [List.find?_cons_of_neg _ (by simp [ha])]
      exact ih (fun p hp => hpre p (by simp [hp]))

/-!
Claim theorems.
-/

/-- Claim C2 (amended): for every deadline and every connect-signal arrival
time t, clientConnected succeeds and cancels its pending timer when t is
within the deadline; when t exceeds the deadline it fails with the
connect-timeout error, and since the connect listener is never removed,
the late connect signal still runs it once (calling resolve and
clearTimeout, both without observable effect on the settled promise), so
the rejection outcome stands. -/
theorem clientConnected_deadline (deadline t : Nat) :
    (t ≤ deadline →
      (clientConnectedRun false deadline t).outcome
          = some ConnOutcome.connectedOk ∧
      (clientConnectedRun false deadline t).timerActive = false ∧
      (clientConnectedRun false deadline t).rejectCalls = 0) ∧
    (deadline < t →
      (clientConnectedRun false deadline t).outcome
          = some (ConnOutcome.timedOut "Timeout waiting for connect") ∧
      (clientConnectedRun false deadline t).rejectCalls = 1 ∧
      (clientConnectedRun false deadline t).listenerRuns = 1 ∧
      (clientConnectedRun false deadline t).resolveCalls = 1) := by
  constructor
  · intro h
    have he : clientConnectedRun false deadline t
        = connectSignalStep initConnState := by
      simp [clientConnectedRun, h]
    rw [he]
    exact ⟨rfl, rfl, rfl⟩
  · intro h
    have hnot : ¬t ≤ deadline := Nat.not_le.mpr h
    have he : clientConnectedRun false deadline t
        = connectSignalStep (connTimerFire initConnState) := by
      simp [clientConnectedRun, hnot]
    rw [he]
    exact ⟨rfl, rfl, rfl, rfl⟩

theorem clientConnected_deadline_witness :
    (clientConnectedRun false 60000 500).outcome
        = some ConnOutcome.connectedOk ∧
    (clientConnectedRun false 60000 60001).rejectCalls = 1 :=
  ⟨((clientConnected_deadline 60000 500).1 (by decide)).1,
   (((clientConnected_deadline 60000 60001).2 (by decide)).2).1⟩

/-- Claim C2 counterexample: with the 60000 ms deadline and the connect
signal arriving at 60001 ms, the wait rejects with the timeout error, yet
the connect listener (which the source never removes) still runs once
afterwards, handling the late signal; the claim that no further handling
of the connect signal occurs is therefore false of the code. -/
theorem connect_listener_runs_after_timeout :
    (clientConnectedRun false CLIENT_TIMEOUT 60001).outcome
        = some (ConnOutcome.timedOut "Timeout waiting for connect") ∧
    (clientConnectedRun false CLIENT_TIMEOUT 60001).listenerRuns = 1 ∧
    (clientConnectedRun false CLIENT_TIMEOUT 60001).resolveCalls = 1 := by
  refine ⟨?_, ?_, ?_⟩ <;> rfl

/-- Claim C4: when the execution result of the fixed work unit reports
exactly one created resource named t, createTable returns the object
fetched for it; when it reports zero created resources, reading entry zero
throws and createTable fails, never returning a handle. -/
theorem createTable_result (session : Session) :
    (session.execResult.changes.created = [ObjDef.mk "t"] →
      createTable session = Except.ok (session.getObject (ObjDef.mk "t"))) ∧
    (session.execResult.changes.created = [] →
      ∃ msg, createTable session = Except.error msg) := by
  constructor
  · intro h
    simp [createTable, h]
  · intro h
    exact ⟨"TypeError: cannot read name of undefined created entry",
      by simp [createTable, h]⟩

/-- A stub session reporting one created resource named t. -/
def sessionOne : Session :=
  { execResult := { changes := { created := [ObjDef.mk "t"] } },
    getObject := fun d => { definitionName := d.name } }

/-- A stub session reporting zero created resources. -/
def sessionZero : Session :=
  { execResult := { changes := { created := [] } },
    getObject := fun d => { definitionName := d.name } }

theorem createTable_result_witness :
    createTable sessionOne = Except.ok (sessionOne.getObject (ObjDef.mk "t")) ∧
    ∃ msg, createTable sessionZero = Except.error msg :=
  ⟨(createTable_result sessionOne).1 rfl, (createTable_result sessionZero).2 rfl⟩

/-- Claim C5 counterexample: both query parameters are present (isSome),
with queryName carrying the empty string and tableName non-empty, yet the
selection takes the Create-ephemeral path, so presence of both parameters
does not imply the Locate-existing path. -/
theorem present_empty_param_chooses_create :
    (Option.some "").isSome = true ∧ (Option.some "T").isSome = true ∧
    selectStrategy (some "") (some "T") = Strategy.createEphemeral := by
  refine ⟨rfl, rfl, ?_⟩
  rfl

/-- Claim C5 (amended): when both parameters are present with non-empty
values, the flow selects Locate-existing with groupName equal to queryName
and resourceName equal to tableName (hence never Create-ephemeral); when
either parameter is absent or empty (falsy), it selects Create-ephemeral
(hence never Locate-existing). -/
theorem strategy_selection (queryName tableName : Option String)
    (gq gt : String) :
    (queryName = some gq → tableName = some gt → gq ≠ "" → gt ≠ "" →
      selectStrategy queryName tableName = Strategy.locateExisting gq gt) ∧
    (truthy queryName = false ∨ truthy tableName = false →
      selectStrategy queryName tableName = Strategy.createEphemeral) := by
  constructor
  · rintro rfl rfl hq ht
    simp [selectStrategy, truthy, hq, ht]
  · intro h
    rcases h with h | h <;> simp [selectStrategy, h]

theorem strategy_selection_witness :
    selectStrategy (some "Q1") (some "T1") = Strategy.locateExisting "Q1" "T1" ∧
    selectStrategy none (some "T1") = Strategy.createEphemeral :=
  ⟨(strategy_selection (some "Q1") (some "T1") "Q1" "T1").1 rfl rfl
      (by decide) (by decide),
   (strategy_selection none (some "T1") "" "").2 (Or.inl rfl)⟩

/-- Claim C6: disposal of the pending resolution (removeListener plus
clearTimeout) is idempotent, preserves the settled outcome and the resolve
and reject call counts, a disposed attempt reacts to neither a timer fire
nor an announcement (no callback fires a second time), and a second
client.disconnect is likewise a no-op. -/
theorem disposal_idempotent (s : LoadState) (queryName tableName : String)
    (q : Query) (c : Connection) :
    dispose (dispose s) = dispose s ∧
    (dispose s).outcome = s.outcome ∧
    (dispose s).resolveCalls = s.resolveCalls ∧
    (dispose s).rejectCalls = s.rejectCalls ∧
    timerFireStep queryName (dispose s) = dispose s ∧
    listenerStep queryName tableName q (dispose s) = dispose s ∧
    disconnect (disconnect c) = disconnect c := by
  refine ⟨rfl, rfl, rfl, rfl, ?_, ?_, rfl⟩
  · simp [timerFireStep, dispose]
  · simp [listenerStep, dispose]

/-- Claim C7: the derived websocket endpoint keeps the host of the base
URL, replaces its path by the fixed /socket path, and maps an http base to
the ws scheme and an https base to the wss scheme; the derivation is a
pure function of the base URL. -/
theorem websocket_endpoint_derivation (base : Url) :
    (deriveWebsocketUrl base).path = "/socket" ∧
    (deriveWebsocketUrl base).host = base.host ∧
    (base.scheme = "http" → (deriveWebsocketUrl base).scheme = "ws") ∧
    (base.scheme = "https" → (deriveWebsocketUrl base).scheme = "wss") := by
  refine ⟨?_, ?_, ?_, ?_⟩
  · cases hb : base.scheme == "http" <;> simp [deriveWebsocketUrl, hb]
  · cases hb : base.scheme == "http" <;> simp [deriveWebsocketUrl, hb]
  · intro h
    simp [deriveWebsocketUrl, h]
  · intro h
    simp [deriveWebsocketUrl, h]

theorem websocket_endpoint_derivation_witness :
    (deriveWebsocketUrl
        { scheme := "http", host := "localhost:10000", path := "/jsapi" }).scheme
      = "ws" ∧
    (deriveWebsocketUrl
        { scheme := "https", host := "example.com", path := "/jsapi" }).scheme
      = "wss" :=
  ⟨(websocket_endpoint_derivation
      { scheme := "http", host := "localhost:10000", path := "/jsapi" }).2.2.1 rfl,
   (websocket_endpoint_derivation
      { scheme := "https", host := "example.com", path := "/jsapi" }).2.2.2 rfl⟩

/-- Claim C9: in the enterprise variant, createTable never produces a
table object, and whenever either query parameter is falsy the whole
resolution ends with the not-implemented error, whatever a loadTable
attempt would have produced. -/
theorem enterprise_create_never_succeeds (h : TableObject)
    (queryName tableName : Option String)
    (locate : String → String → Except String TableObject)
    (habs : truthy queryName = false ∨ truthy tableName = false) :
    Enterprise.createTable ≠ Except.ok h ∧
    Enterprise.tableResult queryName tableName locate =
      Except.error "Creating table not yet implemented in example, please provide queryName/tableName in the URL params" := by
  constructor
  · simp [Enterprise.createTable]
  · rcases habs with h1 | h1 <;>
      simp [Enterprise.tableResult, Enterprise.createTable, h1]

theorem enterprise_create_never_succeeds_witness :
    Enterprise.createTable ≠ Except.ok (TableObject.mk "t") ∧
    Enterprise.tableResult none (some "T1")
        (fun _ r => Except.ok (TableObject.mk r)) =
      Except.error "Creating table not yet implemented in example, please provide queryName/tableName in the URL params" :=
  enterprise_create_never_succeeds (TableObject.mk "t") none (some "T1")
    (fun _ r => Except.ok (TableObject.mk r)) (Or.inl rfl)

/-- Claim C1: in loadTableRun the config-added listener is registered
before the snapshot of known configs is read and scanned, as in the order
of the source body, so every announcement delivered between listener
registration and the snapshot scan whose name matches queryName is
observed, and the attempt resolves to a table handle. -/
theorem announcement_between_registration_and_scan_resolves
    (queryName tableName : String) (initialKnown gap : List Query)
    (after : List Ev) (q : Query) (hq : q ∈ gap)
    (hname : q.name = queryName) :
    ∃ hd, (loadTableRun queryName tableName initialKnown gap after).load.outcome
      = some (Outcome.resolved hd) := by
  obtain ⟨pre, post, rfl⟩ := List.append_of_mem hq
  have hreg : ResolutionInv registeredLoadState := Or.inl ⟨rfl, rfl⟩
  have hpre := listenerFold_inv queryName tableName pre registeredLoadState hreg
  obtain ⟨hd, hhd⟩ :=
    listenerStep_match_resolves queryName tableName q _ hpre hname
  have hgap : ((pre ++ q :: post).foldl
      (fun s p => listenerStep queryName tableName p s)
      registeredLoadState).outcome = some (Outcome.resolved hd) := by
    rw [List.foldl_append, List.foldl_cons]
    exact listenerFold_outcome_of_some hhd post
  refine ⟨hd, ?_⟩
  unfold loadTableRun
  rw [runEvents_load]
  refine loadFold_outcome_of_some ?_ after
  refine resolveIfQueryFound_outcome_of_some ?_
  rw [gapFold_load]
  exact hgap

theorem announcement_between_registration_and_scan_resolves_witness :
    ∃ hd, (loadTableRun "X" "T" [] [Query.mk 1 "X"] []).load.outcome
      = some (Outcome.resolved hd) :=
  announcement_between_registration_and_scan_resolves "X" "T" []
    [Query.mk 1 "X"] [] (Query.mk 1 "X") (by simp) rfl

/-- Claim C3: a loadTable attempt whose initial snapshot contains no
matching config and which receives no matching announcement before the
10 second timer fires rejects exactly once with the query-not-found
message naming queryName, never calls resolve, and disposes the listener
on that failure path; announcements delivered after the failure, even
matching ones, are ignored, so no residual listener fires. -/
theorem locate_timeout_fails_exactly_once
    (queryName tableName : String) (initialKnown before afterT : List Query)
    (hInit : ∀ q ∈ initialKnown, q.name ≠ queryName)
    (hBefore : ∀ q ∈ before, q.name ≠ queryName) :
    (loadTableRun queryName tableName initialKnown []
        (before.map Ev.announce ++ Ev.timerFire :: afterT.map Ev.announce)).load
      = { outcome := some (Outcome.rejected ("Query not found, " ++ queryName)),
          resolveCalls := 0, rejectCalls := 1,
          listenerActive := false, timerActive := false } := by
  unfold loadTableRun
  rw [runEvents_load]
  have hbase : (scanSnapshot queryName tableName
      (List.foldl (fun st q => announceStep queryName tableName q st)
        (registerListener { known := initialKnown, load := initLoadState })
        [])).load = registeredLoadState := by
    show resolveIfQueryFound queryName tableName initialKnown
        registeredLoadState = registeredLoadState
    exact resolveIfQueryFound_no_match queryName tableName initialKnown
      registeredLoadState hInit
  rw [hbase, List.foldl_append,
    loadFold_announce_no_match queryName tableName before registeredLoadState
      hBefore,
    List.foldl_cons]
  have htf : loadStep queryName tableName registeredLoadState Ev.timerFire
      = { outcome := some (Outcome.rejected ("Query not found, " ++ queryName)),
          resolveCalls := 0, rejectCalls := 1,
          listenerActive := false, timerActive := false } := rfl
  rw [htf]
  exact loadFold_announce_inactive queryName tableName afterT _ rfl

theorem locate_timeout_fails_exactly_once_witness :
    (loadTableRun "X" "T" [] []
        (([] : List Query).map Ev.announce
          ++ Ev.timerFire :: [Query.mk 1 "X"].map Ev.announce)).load
      = { outcome := some (Outcome.rejected ("Query not found, " ++ "X")),
          resolveCalls := 0, rejectCalls := 1,
          listenerActive := false, timerActive := false } :=
  locate_timeout_fails_exactly_once "X" "T" [] [] [Query.mk 1 "X"]
    (by simp) (by simp)

/-- Claim C8: when a scanned batch contains more than one config whose
name equals queryName, resolveIfQueryFound resolves with the first match
in iteration order and calls resolve exactly once with the table of that
first match; every later match in the batch is ignored. -/
theorem first_match_in_batch_wins (queryName tableName : String)
    (pre post : List Query) (q : Query)
    (hpre : ∀ p ∈ pre, p.name ≠ queryName) (hq : q.name = queryName) :
    (resolveIfQueryFound queryName tableName (pre ++ q :: post)
        registeredLoadState).outcome
      = some (Outcome.resolved (getTable q tableName)) ∧
    (resolveIfQueryFound queryName tableName (pre ++ q :: post)
        registeredLoadState).resolveCalls = 1 := by
  have hf := find?_first_of_prefix queryName pre post q hpre hq
  constructor <;>
    simp [resolveIfQueryFound, hf, callResolve, settle, registeredLoadState,
      initLoadState]

theorem first_match_in_batch_wins_witness :
    (resolveIfQueryFound "X" "T"
        [Query.mk 1 "A", Query.mk 2 "X", Query.mk 3 "X"]
        registeredLoadState).outcome
      = some (Outcome.resolved (getTable (Query.mk 2 "X") "T")) :=
  (first_match_in_batch_wins "X" "T" [Query.mk 1 "A"] [Query.mk 3 "X"]
    (Query.mk 2 "X") (by decide) rfl).1

/-- Claim C10: a present but empty query parameter is treated exactly as
an absent one by the strategy selection, because the selection tests
truthiness; in particular an empty queryName with any tableName takes the
Create-ephemeral path. -/
theorem empty_param_treated_as_absent (s : String)
    (queryName tableName : Option String) :
    selectStrategy (some "") (some s) = Strategy.createEphemeral ∧
    selectStrategy (some "") tableName = selectStrategy none tableName ∧
    selectStrategy queryName (some "") = selectStrategy queryName none := by
  refine ⟨rfl, rfl, ?_⟩
  simp [selectStrategy, truthy]

end DhApp
